import Mathlib

/-!
Shallow embedding of `animals_web_generator.py` (My_Zootopia).

The program loads a list of animal records (JSON objects), lets the user pick
field/value filters, narrows the record list, serializes each surviving record
to an HTML fragment, substitutes the concatenated fragments into a template,
and writes the result.  File I/O and the interactive menu are collaborators:
the pure pipeline takes the loaded records, the chosen filter mapping and the
template text as parameters, and the written output file is modeled as the
`Option String` component of the result (`none` = nothing written).
-/

namespace Zootopia

/-- An animal record: a JSON object with optional keys `name`,
`characteristics` (an object, modeled as an association list in key order) and
`locations` (an array of strings).  Absent keys are `none`. -/
structure Animal where
  name : Option String
  characteristics : Option (List (String × String))
  locations : Option (List String)
deriving DecidableEq, Repr

/-- Python `animal["characteristics"][field]` guarded by the two `in` checks:
`some v` when `characteristics` is present and holds `field`, else `none`. -/
def charLookup (a : Animal) (field : String) : Option String :=
  match a.characteristics with
  | some chars => chars.lookup field
  | none => none

/-- Python `animal["locations"][0]` guarded by presence and truthiness of
`animal["locations"]`: `some` of the first element when the key is present and
the list non-empty, else `none`. -/
def locationsHead (a : Animal) : Option String :=
  match a.locations with
  | some (l0 :: _) => some l0
  | _ => none

/-- The spec's Field Accessor (spec section 4.1), written from the spec's
words for the refinement claims: for field `location` read `locations[0]`
when `locations` exists and is non-empty, otherwise absent; for any other
field read `characteristics[field]` when present, otherwise absent. -/
def specFieldAccessor (a : Animal) (field : String) : Option String :=
  if field = "location" then locationsHead a
  else charLookup a field

/-- One iteration of the loop body of `filter_animals` (source lines
148-165): skip the constraint when its value is the sentinel `"all"`,
otherwise keep only the records whose relevant stored value equals the
constraint value, reading `locations[0]` for field `location` and
`characteristics[field]` for every other field. -/
def applyFilter (animals : List Animal) (field : String) (value : String) :
    List Animal :=
  if value == "all" then animals
  else if field == "location" then
    animals.filter fun animal =>
      match animal.locations with
      | some (l0 :: _) => l0 == value
      | _ => false
  else
    animals.filter fun animal =>
      match animal.characteristics with
      | some chars =>
        match chars.lookup field with
        | some v => v == value
        | none => false
      | none => false

/-- Source `filter_animals(animals, filters)` (lines 136-167): fold the loop
body over the constraints in mapping order, starting from the full list.
The Python `filters` dict is modeled as its ordered key/value pair list. -/
def filterAnimals (animals : List Animal) (filters : List (String × String)) :
    List Animal :=
  filters.foldl (fun filtered fv => applyFilter filtered fv.1 fv.2) animals

/-- The value one record contributes to `get_unique_values` (source lines
128-132): the `if` branch adds `characteristics[field]` whenever present; only
the `elif` branch, reached when that fails, adds `locations[0]` for field
`location`. -/
def uniqueContribution (a : Animal) (field : String) : Option String :=
  match charLookup a field with
  | some v => some v
  | none =>
    if field = "location" then locationsHead a
    else none

/-- Source `get_unique_values(animals, field)` (lines 116-133).  The Python
set of added values is represented by the list of contributions; claims about
it are stated through membership, which is insensitive to duplication. -/
def getUniqueValues (animals : List Animal) (field : String) : List String :=
  animals.filterMap (fun a => uniqueContribution a field)

/-- The `Diet` detail line of `serialize_animal` (source line 47). -/
def dietLine (v : String) : String :=
  "            <li class=\"detail__item\"><strong>Diet:</strong> " ++ v ++ "</li>\n"

/-- The `Location` detail line of `serialize_animal` (source line 51). -/
def locationLine (v : String) : String :=
  "            <li class=\"detail__item\"><strong>Location:</strong> " ++ v ++ "</li>\n"

/-- The `Type` detail line of `serialize_animal` (source line 55). -/
def typeLine (v : String) : String :=
  "            <li class=\"detail__item\"><strong>Type:</strong> " ++ v ++ "</li>\n"

/-- The `Skin Type` detail line of `serialize_animal` (source line 59). -/
def skinTypeLine (v : String) : String :=
  "            <li class=\"detail__item\"><strong>Skin Type:</strong> " ++ v ++ "</li>\n"

/-- The `Lifespan` detail line of `serialize_animal` (source line 63). -/
def lifespanLine (v : String) : String :=
  "            <li class=\"detail__item\"><strong>Lifespan:</strong> " ++ v ++ "</li>\n"

/-- Source `serialize_animal(animal)` (lines 23-68).  Each skipped `if` body
contributes the empty string to the `+=` chain.  Note that in the source all
five detail lines, the `Location` line included, sit inside the
`if "characteristics" in animal` block (lines 42-63). -/
def serializeAnimal (animal : Animal) : String :=
  let nameSection :=
    match animal.name with
    | some n => "    <div class=\"card__title\">" ++ n ++ "</div>\n"
    | none => ""
  let charsSection :=
    match animal.characteristics with
    | some chars =>
      (match chars.lookup "diet" with
       | some v => dietLine v
       | none => "")
      ++ (match animal.locations with
          | some (l0 :: _) => locationLine l0
          | _ => "")
      ++ (match chars.lookup "type" with
          | some v => typeLine v
          | none => "")
      ++ (match chars.lookup "skin_type" with
          | some v => skinTypeLine v
          | none => "")
      ++ (match chars.lookup "lifespan" with
          | some v => lifespanLine v
          | none => "")
    | none => ""
  "<li class=\"cards__item\">\n"
    ++ nameSection
    ++ "    <div class=\"card__text\">\n"
    ++ "        <ul class=\"animal__details\">\n"
    ++ charsSection
    ++ "        </ul>\n"
    ++ "    </div>\n"
    ++ "</li>\n"

/-- Source `serialize_animals_list(animals)` (lines 71-81): the fragments
joined with the empty separator, in record order. -/
def serializeAnimalsList (animals : List Animal) : String :=
  String.join (animals.map serializeAnimal)

/-- Python `str.replace(pat, rep)` on character lists: scan left to right,
replacing each non-overlapping occurrence of `pat`, leftmost first.  (For an
empty `pat` this copies `s` unchanged; the pipeline only ever uses the
24-character placeholder, so that case is never exercised.) -/
def replaceAllAux (s pat rep : List Char) : List Char :=
  if h : pat ≠ [] ∧ pat.isPrefixOf s then
    rep ++ replaceAllAux (s.drop pat.length) pat rep
  else
    match s with
    | [] => []
    | c :: rest => c :: replaceAllAux rest pat rep
termination_by s.length
decreasing_by
  · have hpre : pat <+: s := List.isPrefixOf_iff_prefix.mp h.2
    have hle : pat.length ≤ s.length := hpre.length_le
    have hpos : 0 < pat.length := List.length_pos.mpr h.1
    simp only [List.length_drop]
    omega
  · simp

/-- Python `template.replace(pat, rep)` on Lean strings, via their character data. -/
def stringReplace (s pat rep : String) : String :=
  ⟨replaceAllAux s.data pat.data rep.data⟩

/-- The template placeholder token (source line 259). -/
def placeholder : String := "__REPLACE_ANIMALS_INFO__"

/-- Source `process_animals_to_html` (lines 234-274), restricted to its pure
pipeline: the loaded records, the filter mapping chosen in the menu and the
template text are parameters (they come from collaborators), and the file
write is modeled as the `Option String` component (`none` = no file written).
Mirrors the source: filter only when `filters` is non-empty, fail with the
no-matches message when filtering empties the list, otherwise substitute the
serialized fragments into the template and report the count and the
non-wildcard filters. -/
def processAnimalsToHtml (animals : List Animal)
    (filters : List (String × String)) (template : String) :
    Bool × String × Option String :=
  let animalsData :=
    if filters.isEmpty then animals else filterAnimals animals filters
  if !filters.isEmpty && animalsData.isEmpty then
    (false, "No animals found matching the selected filters", none)
  else
    let animalsInfo := serializeAnimalsList animalsData
    let finalHtml := stringReplace template placeholder animalsInfo
    let filterMsg := String.intercalate ", "
      ((filters.filter fun fv => fv.2 != "all").map fun fv =>
        fv.1 ++ ": " ++ fv.2)
    (true,
     "Generated HTML for " ++ toString animalsData.length ++ " animals" ++
       (if filterMsg == "" then "" else " with filters: " ++ filterMsg),
     some finalHtml)

/-- The survival condition of one constraint on one record, as the spec
states it: the constraint is the wildcard, or the Field Accessor result is
present and equals the constraint value exactly. -/
def satisfiesConstraint (a : Animal) (fv : String × String) : Bool :=
  fv.2 == "all" || specFieldAccessor a fv.1 == some fv.2

theorem applyFilter_eq_filter (animals : List Animal) (field value : String)
    (hv : value ≠ "all") :
    applyFilter animals field value =
      animals.filter fun a => specFieldAccessor a field == some value := by
  unfold applyFilter
  rw [if_neg (by simpa using hv)]
  by_cases hf : field = "location"
  · rw [if_pos (by simpa using hf)]
    apply List.filter_congr
    intro a _
    simp only [specFieldAccessor, if_pos hf, locationsHead]
    cases hloc : a.locations with
    | none => simp
    | some ls =>
      cases ls with
      | nil => simp
      | cons l0 t => simp
  · rw [if_neg (by simpa using hf)]
    apply List.filter_congr
    intro a _
    simp only [specFieldAccessor, if_neg hf, charLookup]
    cases hc : a.characteristics with
    | none => simp
    | some chars =>
      cases hl : chars.lookup field with
      | none => simp [hl]
      | some v => simp [hl]

theorem filterAnimals_cons (animals : List Animal) (fv : String × String)
    (fs : List (String × String)) :
    filterAnimals animals (fv :: fs) =
      filterAnimals (applyFilter animals fv.1 fv.2) fs := rfl

theorem filterAnimals_eq_filter (animals : List Animal)
    (fs : List (String × String)) :
    filterAnimals animals fs =
      animals.filter fun a => fs.all fun fv => satisfiesConstraint a fv := by
  induction fs generalizing animals with
  | nil =>
    simp only [filterAnimals, List.foldl_nil, List.all_nil, List.filter_true]
  | cons fv fs ih =>
    rw [filterAnimals_cons, ih]
    by_cases hv : fv.2 = "all"
    · have happ : applyFilter animals fv.1 fv.2 = animals := by
        unfold applyFilter
        rw [if_pos (by simpa using hv)]
      rw [happ]
      apply List.filter_congr
      intro a _
      simp [satisfiesConstraint, hv]
    · rw [applyFilter_eq_filter _ _ _ hv, List.filter_filter]
      apply List.filter_congr
      intro a _
      have hfv : (fv.2 == "all") = false := beq_eq_false_iff_ne.mpr hv
      simp [satisfiesConstraint, hfv, List.all_cons, Bool.and_comm]

theorem all_eq_of_perm {α : Type} (p : α → Bool) {l1 l2 : List α}
    (h : l1.Perm l2) : l1.all p = l2.all p := by
  induction h with
  | nil => rfl
  | cons x _ ih => simp [List.all_cons, ih]
  | swap x y l => simp [List.all_cons, Bool.and_comm, Bool.and_left_comm]
  | trans _ _ ih1 ih2 => exact ih1.trans ih2

/-- C1: `filter_animals` returns exactly the records satisfying all
non-wildcard constraints, in their original relative order: the result is the
order-preserving sublist of records r such that every constraint (f, v) with
v not `"all"` has the Field Accessor of r at f present and equal to v
(case-sensitive string equality; `locations[0]` for field `location`,
`characteristics[f]` otherwise); a record missing the field fails every
non-wildcard constraint on it. -/
theorem c1_filter_exact (animals : List Animal) (fs : List (String × String)) :
    filterAnimals animals fs =
      animals.filter fun a => fs.all fun fv =>
        fv.2 == "all" || specFieldAccessor a fv.1 == some fv.2 :=
  filterAnimals_eq_filter animals fs

/-- C5: filtering with the empty constraint mapping returns the record list
unchanged, and so does filtering with a constraint mapping all of whose
values are the wildcard sentinel `"all"`. -/
theorem c5_wildcard_identity (animals : List Animal)
    (fs : List (String × String)) (hw : ∀ fv ∈ fs, fv.2 = "all") :
    filterAnimals animals [] = animals ∧ filterAnimals animals fs = animals := by
  refine ⟨rfl, ?_⟩
  induction fs with
  | nil => rfl
  | cons fv t ih =>
    rw [filterAnimals_cons]
    have happ : applyFilter animals fv.1 fv.2 = animals := by
      unfold applyFilter
      rw [if_pos (by simpa using hw fv (by simp))]
    rw [happ]
    exact ih fun g hg => hw g (by simp [hg])

/-- Closed witness for C5 at a concrete record list and an all-wildcard
constraint mapping. -/
theorem c5_wildcard_identity_witness :
    (∀ fv ∈ [("diet", "all"), ("location", "all")], fv.2 = "all") ∧
      filterAnimals [⟨some "Fox", some [("diet", "Omnivore")], some ["Forest"]⟩]
        [("diet", "all"), ("location", "all")] =
        [⟨some "Fox", some [("diet", "Omnivore")], some ["Forest"]⟩] :=
  ⟨by decide,
   (c5_wildcard_identity
     [⟨some "Fox", some [("diet", "Omnivore")], some ["Forest"]⟩]
     [("diet", "all"), ("location", "all")] (by decide)).2⟩

/-- C6: applying the constraints of a filter mapping in any permuted order
yields the same filtered record list. -/
theorem c6_order_independent (animals : List Animal)
    (fs1 fs2 : List (String × String)) (h : fs1.Perm fs2) :
    filterAnimals animals fs1 = filterAnimals animals fs2 := by
  rw [filterAnimals_eq_filter, filterAnimals_eq_filter]
  exact List.filter_congr fun a _ =>
    all_eq_of_perm (fun fv => satisfiesConstraint a fv) h

/-- Closed witness for C6: two concrete constraint orders over a concrete
record list give the same result. -/
theorem c6_order_independent_witness :
    ([("diet", "Omnivore"), ("type", "Mammal")].Perm
      [("type", "Mammal"), ("diet", "Omnivore")]) ∧
    filterAnimals
        [⟨some "Fox", some [("diet", "Omnivore"), ("type", "Mammal")], some ["Forest"]⟩,
         ⟨some "Carp", some [("diet", "Herbivore"), ("type", "Fish")], none⟩]
        [("diet", "Omnivore"), ("type", "Mammal")] =
      filterAnimals
        [⟨some "Fox", some [("diet", "Omnivore"), ("type", "Mammal")], some ["Forest"]⟩,
         ⟨some "Carp", some [("diet", "Herbivore"), ("type", "Fish")], none⟩]
        [("type", "Mammal"), ("diet", "Omnivore")] :=
  ⟨by decide,
   c6_order_independent
     [⟨some "Fox", some [("diet", "Omnivore"), ("type", "Mammal")], some ["Forest"]⟩,
      ⟨some "Carp", some [("diet", "Herbivore"), ("type", "Fish")], none⟩]
     [("diet", "Omnivore"), ("type", "Mammal")]
     [("type", "Mammal"), ("diet", "Omnivore")] (by decide)⟩

/-- C9: the wildcard sentinel is the literal string `"all"`: a constraint
carrying the value `"all"` is always skipped, so any exact-match constraint
that retains a record whose stored field value is exactly `"all"` must have
been the skipped wildcard, retaining every record — such a record can never
be positively selected. -/
theorem c9_wildcard_sentinel (animals : List Animal) (field : String) :
    filterAnimals animals [(field, "all")] = animals ∧
    ∀ value a, specFieldAccessor a field = some "all" →
      a ∈ filterAnimals animals [(field, value)] →
      filterAnimals animals [(field, value)] = animals := by
  have hall : filterAnimals animals [(field, "all")] = animals := by
    show applyFilter animals field "all" = animals
    unfold applyFilter
    rw [if_pos (by simp)]
  refine ⟨hall, ?_⟩
  intro value a hacc hmem
  by_cases hv : value = "all"
  · subst hv
    exact hall
  · exfalso
    have hsingle : filterAnimals animals [(field, value)] =
        animals.filter fun r => specFieldAccessor r field == some value :=
      applyFilter_eq_filter animals field value hv
    rw [hsingle] at hmem
    have hbeq := List.of_mem_filter hmem
    rw [hacc] at hbeq
    have heq : "all" = value := by simpa using hbeq
    exact hv heq.symm

/-- Closed witness for C9 at a record whose stored diet value is the literal
string `"all"`. -/
theorem c9_wildcard_sentinel_witness :
    specFieldAccessor ⟨none, some [("diet", "all")], none⟩ "diet" = some "all" ∧
    (⟨none, some [("diet", "all")], none⟩ : Animal) ∈
      filterAnimals [⟨none, some [("diet", "all")], none⟩,
        ⟨none, some [("diet", "Herbivore")], none⟩] [("diet", "all")] ∧
    filterAnimals [⟨none, some [("diet", "all")], none⟩,
        ⟨none, some [("diet", "Herbivore")], none⟩] [("diet", "all")] =
      [⟨none, some [("diet", "all")], none⟩,
        ⟨none, some [("diet", "Herbivore")], none⟩] :=
  ⟨by decide, by decide,
   (c9_wildcard_sentinel
     [⟨none, some [("diet", "all")], none⟩,
      ⟨none, some [("diet", "Herbivore")], none⟩] "diet").2
     "all" ⟨none, some [("diet", "all")], none⟩ (by decide) (by decide)⟩

theorem uniqueContribution_eq_some (a : Animal) (field v : String) :
    uniqueContribution a field = some v ↔
      charLookup a field = some v ∨
        (charLookup a field = none ∧ field = "location" ∧
          locationsHead a = some v) := by
  unfold uniqueContribution
  cases hc : charLookup a field with
  | some w => simp
  | none =>
    by_cases hf : field = "location"
    · simp [hf]
    · simp [hf]

/-- C3 counterexample: for field `location`, a record that stores a value
under `characteristics["location"]` contributes that value, not
`locations[0]`, so `get_unique_values` differs from the spec's Field
Accessor (which reads `locations[0]` and is blind to
`characteristics["location"]`). -/
theorem c3_counterexample :
    specFieldAccessor ⟨none, some [("location", "X")], some ["Y"]⟩ "location" =
      some "Y" ∧
    getUniqueValues [⟨none, some [("location", "X")], some ["Y"]⟩] "location" =
      ["X"] ∧
    "Y" ∉ getUniqueValues [⟨none, some [("location", "X")], some ["Y"]⟩]
      "location" := by
  refine ⟨rfl, rfl, ?_⟩
  decide

/-- C3 (amended): the set `get_unique_values(records, field)` holds exactly
the present contributed values, where a record's contribution is
`characteristics[field]` whenever that key is present (for every field,
`location` included), and only as a fallback, for field `location` with no
`characteristics["location"]` key, `locations[0]` of a non-empty
`locations`. -/
theorem c3_unique_values (animals : List Animal) (field v : String) :
    v ∈ getUniqueValues animals field ↔
      ∃ a ∈ animals,
        charLookup a field = some v ∨
          (charLookup a field = none ∧ field = "location" ∧
            locationsHead a = some v) := by
  unfold getUniqueValues
  rw [List.mem_filterMap]
  constructor
  · rintro ⟨a, ha, hu⟩
    exact ⟨a, ha, (uniqueContribution_eq_some a field v).mp hu⟩
  · rintro ⟨a, ha, hu⟩
    exact ⟨a, ha, (uniqueContribution_eq_some a field v).mpr hu⟩

theorem sfac_refl (x : String) : ∃ p s : String, x = p ++ x ++ s :=
  ⟨"", "", by rw [String.append_empty]; rfl⟩

theorem sfac_app_left {x a : String} (b : String)
    (h : ∃ p s : String, a = p ++ x ++ s) :
    ∃ p s : String, a ++ b = p ++ x ++ s := by
  obtain ⟨p, s, hps⟩ := h
  exact ⟨p, s ++ b, by simp [hps, String.append_assoc]⟩

theorem sfac_app_right {x b : String} (a : String)
    (h : ∃ p s : String, b = p ++ x ++ s) :
    ∃ p s : String, a ++ b = p ++ x ++ s := by
  obtain ⟨p, s, hps⟩ := h
  exact ⟨a ++ p, s, by simp [hps, String.append_assoc]⟩

set_option maxRecDepth 16384 in
/-- C2 counterexample: a record with a non-empty `locations` but no
`characteristics` mapping gets no `Location:` line at all — in the source the
Location emission sits inside the `if "characteristics" in animal` block, so
locations being non-empty is not its only emission condition. -/
theorem c2_counterexample :
    (Animal.mk none none (some ["Forest"])).locations = some ["Forest"] ∧
    ¬ (locationLine "Forest").data <:+:
        (serializeAnimal ⟨none, none, some ["Forest"]⟩).data := by
  refine ⟨rfl, ?_⟩
  decide

/-- C2 (amended): for every record that has a characteristics mapping and a
non-empty `locations` sequence, the serialized fragment contains the
`Location:` detail line carrying `locations[0]`. -/
theorem c2_location_line (animal : Animal) (chars : List (String × String))
    (l0 : String) (rest : List String)
    (hc : animal.characteristics = some chars)
    (hl : animal.locations = some (l0 :: rest)) :
    ∃ p s : String, serializeAnimal animal = p ++ locationLine l0 ++ s := by
  simp only [serializeAnimal, hc, hl]
  apply sfac_app_left
  apply sfac_app_left
  apply sfac_app_left
  apply sfac_app_right
  apply sfac_app_left
  apply sfac_app_left
  apply sfac_app_left
  apply sfac_app_right
  exact sfac_refl _

/-- Closed witness for C2 (amended) at a concrete record carrying both a
characteristics mapping and a non-empty locations list. -/
theorem c2_location_line_witness :
    (Animal.mk (some "Fox") (some [("diet", "Omnivore")]) (some ["Forest"])).characteristics
        = some [("diet", "Omnivore")] ∧
    (Animal.mk (some "Fox") (some [("diet", "Omnivore")]) (some ["Forest"])).locations
        = some ["Forest"] ∧
    ∃ p s : String,
      serializeAnimal ⟨some "Fox", some [("diet", "Omnivore")], some ["Forest"]⟩ =
        p ++ locationLine "Forest" ++ s :=
  ⟨rfl, rfl,
   c2_location_line ⟨some "Fox", some [("diet", "Omnivore")], some ["Forest"]⟩
     [("diet", "Omnivore")] "Forest" [] rfl rfl⟩

theorem processAnimalsToHtml_noMatches (animals : List Animal)
    (fs : List (String × String)) (template : String) (hne : fs ≠ [])
    (hempty : filterAnimals animals fs = []) :
    processAnimalsToHtml animals fs template =
      (false, "No animals found matching the selected filters", none) := by
  unfold processAnimalsToHtml
  have hfe : fs.isEmpty = false := by
    cases fs with
    | nil => exact absurd rfl hne
    | cons a t => rfl
  rw [hfe]
  simp [hempty]

theorem filterAnimals_nil_animals (fs : List (String × String)) :
    filterAnimals [] fs = [] := by
  induction fs with
  | nil => rfl
  | cons fv t ih =>
    rw [filterAnimals_cons]
    have happ : applyFilter [] fv.1 fv.2 = [] := by
      unfold applyFilter
      by_cases hv : (fv.2 == "all") = true
      · rw [if_pos hv]
      · rw [if_neg hv]
        by_cases hf : (fv.1 == "location") = true
        · rw [if_pos hf]; rfl
        · rw [if_neg hf]; rfl
    rw [happ]
    exact ih

/-- C4: when at least one filter was selected and filtering leaves no
surviving record, the pipeline returns the failed outcome: success flag
`false`, the distinct no-matches message, and no output file content. -/
theorem c4_no_matches_failure (animals : List Animal)
    (fs : List (String × String)) (template : String) (hne : fs ≠ [])
    (hempty : filterAnimals animals fs = []) :
    processAnimalsToHtml animals fs template =
      (false, "No animals found matching the selected filters", none) :=
  processAnimalsToHtml_noMatches animals fs template hne hempty

/-- Closed witness for C4: a concrete filter that no record matches fails
with the no-matches message and writes nothing. -/
theorem c4_no_matches_failure_witness :
    ([("diet", "Carnivore")] : List (String × String)) ≠ [] ∧
    filterAnimals [⟨some "Fox", some [("diet", "Omnivore")], some ["Forest"]⟩]
      [("diet", "Carnivore")] = [] ∧
    processAnimalsToHtml
        [⟨some "Fox", some [("diet", "Omnivore")], some ["Forest"]⟩]
        [("diet", "Carnivore")] "<ul>__REPLACE_ANIMALS_INFO__</ul>" =
      (false, "No animals found matching the selected filters", none) :=
  ⟨by decide, by decide,
   c4_no_matches_failure
     [⟨some "Fox", some [("diet", "Omnivore")], some ["Forest"]⟩]
     [("diet", "Carnivore")] "<ul>__REPLACE_ANIMALS_INFO__</ul>"
     (by decide) (by decide)⟩

/-- C10: the no-matches failure needs a non-empty filter mapping: with no
filters selected, an empty record list still renders as a successful run
reporting zero animals (the template with the placeholder replaced by the
empty fragment string is written), whereas any non-empty filter mapping —
even one holding only wildcard values — over an empty record list yields the
no-matches failure and writes nothing. -/
theorem c10_empty_filters_contrast (template : String)
    (fs : List (String × String)) (hne : fs ≠ [])
    (hw : ∀ fv ∈ fs, fv.2 = "all") :
    processAnimalsToHtml [] [] template =
      (true, "Generated HTML for 0 animals",
        some (stringReplace template placeholder "")) ∧
    processAnimalsToHtml [] fs template =
      (false, "No animals found matching the selected filters", none) := by
  refine ⟨rfl, ?_⟩
  exact processAnimalsToHtml_noMatches [] fs template hne
    (filterAnimals_nil_animals fs)

/-- Closed witness for C10 at a concrete wildcard-only filter mapping. -/
theorem c10_empty_filters_contrast_witness :
    ([("diet", "all")] : List (String × String)) ≠ [] ∧
    (∀ fv ∈ [("diet", "all")], Prod.snd fv = "all") ∧
    processAnimalsToHtml [] [] "a__REPLACE_ANIMALS_INFO__b" =
      (true, "Generated HTML for 0 animals",
        some (stringReplace "a__REPLACE_ANIMALS_INFO__b" placeholder "")) ∧
    processAnimalsToHtml [] [("diet", "all")] "a__REPLACE_ANIMALS_INFO__b" =
      (false, "No animals found matching the selected filters", none) :=
  ⟨by decide, by decide,
   (c10_empty_filters_contrast "a__REPLACE_ANIMALS_INFO__b" [("diet", "all")]
     (by decide) (by decide)).1,
   (c10_empty_filters_contrast "a__REPLACE_ANIMALS_INFO__b" [("diet", "all")]
     (by decide) (by decide)).2⟩

theorem intercalate_go_length (as : List String) (acc s : String) :
    acc.length ≤ (String.intercalate.go acc s as).length := by
  induction as generalizing acc with
  | nil => exact le_refl _
  | cons a t ih =>
    calc acc.length ≤ (acc ++ s ++ a).length := by
          rw [String.length_append, String.length_append]; omega
      _ ≤ (String.intercalate.go (acc ++ s ++ a) s t).length := ih _
      _ = (String.intercalate.go acc s (a :: t)).length := rfl

theorem filter_message_ne_empty (l : List (String × String)) (hne : l ≠ []) :
    (String.intercalate ", "
        (l.map fun fv => fv.1 ++ ": " ++ fv.2) == "") = false := by
  cases l with
  | nil => exact absurd rfl hne
  | cons fv t =>
    apply beq_eq_false_iff_ne.mpr
    intro hcontra
    have hlen : (fv.1 ++ ": " ++ fv.2).length ≤
        (String.intercalate ", "
          ((fv :: t).map fun g => g.1 ++ ": " ++ g.2)).length :=
      intercalate_go_length _ _ _
    rw [hcontra] at hlen
    rw [String.length_append, String.length_append] at hlen
    have h2 : (": " : String).length = 2 := rfl
    have h0 : ("" : String).length = 0 := rfl
    omega

/-- C8: on a successful run the result message carries the count of rendered
animals and, when any non-wildcard filter was applied, the non-wildcard
filters rendered as field-colon-value pairs joined by a comma and a space;
with no non-wildcard filter the message is the bare count sentence. -/
theorem c8_success_message (animals : List Animal)
    (fs : List (String × String)) (template : String)
    (hok : fs = [] ∨ filterAnimals animals fs ≠ []) :
    (processAnimalsToHtml animals fs template).1 = true ∧
    (processAnimalsToHtml animals fs template).2.1 =
      "Generated HTML for " ++
        toString (if fs.isEmpty then animals
          else filterAnimals animals fs).length ++ " animals" ++
        (if (fs.filter fun fv => fv.2 != "all") = [] then ""
         else " with filters: " ++ String.intercalate ", "
           ((fs.filter fun fv => fv.2 != "all").map fun fv =>
             fv.1 ++ ": " ++ fv.2)) := by
  by_cases hfs : fs = []
  · subst hfs
    refine ⟨rfl, ?_⟩
    simp only [processAnimalsToHtml]
    simp
    rw [show String.intercalate ", " ([] : List String) = "" from rfl,
      if_pos rfl, String.append_empty]
  · have hsur : filterAnimals animals fs ≠ [] := by
      cases hok with
      | inl h0 => exact absurd h0 hfs
      | inr h0 => exact h0
    have hfe : fs.isEmpty = false := by
      cases fs with
      | nil => exact absurd rfl hfs
      | cons a t => rfl
    have hde : (filterAnimals animals fs).isEmpty = false := by
      cases hdd : filterAnimals animals fs with
      | nil => exact absurd hdd hsur
      | cons a t => rfl
    unfold processAnimalsToHtml
    rw [hfe]
    simp only [Bool.not_false, Bool.true_and, if_neg (by simp : ¬False),
      Bool.false_eq_true, if_false, hde]
    by_cases hnw : (fs.filter fun fv => fv.2 != "all") = []
    · rw [hnw]
      simp
      rw [show String.intercalate ", " ([] : List String) = "" from rfl,
        if_pos rfl, String.append_empty]
    · rw [if_neg hnw, filter_message_ne_empty _ hnw]
      simp

/-- Closed witness for C8 at a concrete record list with one applied
non-wildcard filter and one wildcard filter. -/
theorem c8_success_message_witness :
    (([("diet", "Herbivore"), ("type", "all")] : List (String × String)) = [] ∨
      filterAnimals [⟨none, some [("diet", "Herbivore")], none⟩,
        ⟨none, some [("diet", "Carnivore")], none⟩]
        [("diet", "Herbivore"), ("type", "all")] ≠ []) ∧
    (processAnimalsToHtml [⟨none, some [("diet", "Herbivore")], none⟩,
        ⟨none, some [("diet", "Carnivore")], none⟩]
        [("diet", "Herbivore"), ("type", "all")] "t").1 = true ∧
    (processAnimalsToHtml [⟨none, some [("diet", "Herbivore")], none⟩,
        ⟨none, some [("diet", "Carnivore")], none⟩]
        [("diet", "Herbivore"), ("type", "all")] "t").2.1 =
      "Generated HTML for " ++
        toString (if ([("diet", "Herbivore"), ("type", "all")] :
            List (String × String)).isEmpty then
          [⟨none, some [("diet", "Herbivore")], none⟩,
            ⟨none, some [("diet", "Carnivore")], none⟩]
          else filterAnimals [⟨none, some [("diet", "Herbivore")], none⟩,
            ⟨none, some [("diet", "Carnivore")], none⟩]
            [("diet", "Herbivore"), ("type", "all")]).length ++ " animals" ++
        (if (([("diet", "Herbivore"), ("type", "all")] :
            List (String × String)).filter fun fv => fv.2 != "all") = [] then ""
         else " with filters: " ++ String.intercalate ", "
           ((([("diet", "Herbivore"), ("type", "all")] :
             List (String × String)).filter fun fv => fv.2 != "all").map
               fun fv => fv.1 ++ ": " ++ fv.2)) :=
  ⟨Or.inr (by decide),
   (c8_success_message [⟨none, some [("diet", "Herbivore")], none⟩,
      ⟨none, some [("diet", "Carnivore")], none⟩]
      [("diet", "Herbivore"), ("type", "all")] "t" (Or.inr (by decide))).1,
   (c8_success_message [⟨none, some [("diet", "Herbivore")], none⟩,
      ⟨none, some [("diet", "Carnivore")], none⟩]
      [("diet", "Herbivore"), ("type", "all")] "t" (Or.inr (by decide))).2⟩

theorem replaceAllAux_no_occurrence (s pat rep : List Char)
    (h : ¬ pat <:+: s) : replaceAllAux s pat rep = s := by
  induction s with
  | nil =>
    unfold replaceAllAux
    rw [dif_neg (by
      rintro ⟨hne, hpre⟩
      exact h ( List.isPrefixOf_iff_prefix.mp hpre).isInfix)]
  | cons c rest ih =>
    unfold replaceAllAux
    rw [dif_neg (by
      rintro ⟨hne, hpre⟩
      exact h ( List.isPrefixOf_iff_prefix.mp hpre).isInfix)]
    show c :: replaceAllAux rest pat rep = c :: rest
    rw [ih fun hinf => h (List.infix_cons hinf)]

theorem replaceAllAux_leftmost (pat rep pre suf : List Char) (hpat : pat ≠ [])
    (hno : ∀ i < pre.length,
      pat.isPrefixOf ((pre ++ pat ++ suf).drop i) = false) :
    replaceAllAux (pre ++ pat ++ suf) pat rep =
      pre ++ rep ++ replaceAllAux suf pat rep := by
  induction pre with
  | nil =>
    simp only [List.nil_append]
    conv_lhs => rw [replaceAllAux]
    rw [dif_pos ⟨hpat,
      List.isPrefixOf_iff_prefix.mpr ( List.prefix_append pat suf)⟩]
    rw [List.drop_left]
  | cons c pre ih =>
    have h0 : pat.isPrefixOf (c :: (pre ++ pat ++ suf)) = false := by
      have hx := hno 0 (by simp)
      simpa using hx
    simp only [List.cons_append]
    have hno2 : ∀ i < pre.length,
        pat.isPrefixOf ((pre ++ pat ++ suf).drop i) = false := by
      intro i hi
      have hx := hno (i + 1) (by simpa using Nat.succ_lt_succ hi)
      simpa [List.cons_append] using hx
    conv_lhs => rw [replaceAllAux]
    rw [dif_neg (by
      rintro ⟨hne, hpre⟩
      rw [h0] at hpre
      exact Bool.false_ne_true hpre)]
    show c :: replaceAllAux (pre ++ pat ++ suf) pat rep =
      c :: (pre ++ rep ++ replaceAllAux suf pat rep)
    rw [ih hno2]

/-- C7: page assembly replaces the occurrences of the literal placeholder
token in the template with the fragments of all records joined with no
separator in record order, scanning left to right: when the placeholder does
not occur, the template is returned unmodified (not an error); when the
template splits as prefix, placeholder, suffix with no earlier occurrence,
the result is that prefix, the joined fragments, and the suffix with its own
occurrences replaced in turn. -/
theorem c7_page_assembly (template : String) (animals : List Animal) :
    (¬ placeholder.data <:+: template.data →
      stringReplace template placeholder (serializeAnimalsList animals) =
        template) ∧
    (∀ pre suf : List Char,
      template.data = pre ++ placeholder.data ++ suf →
      (∀ i < pre.length,
        placeholder.data.isPrefixOf
          ((pre ++ placeholder.data ++ suf).drop i) = false) →
      (stringReplace template placeholder (serializeAnimalsList animals)).data =
        pre ++ (serializeAnimalsList animals).data ++
          replaceAllAux suf placeholder.data
            (serializeAnimalsList animals).data) := by
  constructor
  · intro h
    show String.mk (replaceAllAux template.data placeholder.data _) = template
    rw [replaceAllAux_no_occurrence _ _ _ h]
  · intro pre suf hdec hno
    show replaceAllAux template.data placeholder.data _ = _
    rw [hdec, replaceAllAux_leftmost _ _ _ _ (by decide) hno]

/-- Closed witness for C7: a template without the placeholder passes through
unchanged, and a template of the form prefix-placeholder-suffix is assembled
as prefix, fragments, suffix. -/
theorem c7_page_assembly_witness :
    (¬ placeholder.data <:+: ("no token here" : String).data) ∧
    stringReplace "no token here" placeholder (serializeAnimalsList []) =
      "no token here" ∧
    (("<ul>__REPLACE_ANIMALS_INFO__</ul>" : String).data =
      ("<ul>" : String).data ++ placeholder.data ++ ("</ul>" : String).data) ∧
    (stringReplace "<ul>__REPLACE_ANIMALS_INFO__</ul>" placeholder
        (serializeAnimalsList [])).data =
      ("<ul>" : String).data ++ (serializeAnimalsList []).data ++
        replaceAllAux ("</ul>" : String).data placeholder.data
          (serializeAnimalsList []).data :=
  ⟨by decide,
   (c7_page_assembly "no token here" []).1 (by decide),
   by decide,
   (c7_page_assembly "<ul>__REPLACE_ANIMALS_INFO__</ul>" []).2
     ("<ul>" : String).data ("</ul>" : String).data (by decide) (by decide)⟩

end Zootopia
